import Mathlib

/-!
Verification of the no-split span registry from `src/c-deps/libroach/keys.h`.

The source file is a generated table of constants: two boundary keys
(`kLocalMax`, `kMeta2KeyMax`) and two span sets (`kSortedNoSplitSpans`,
`kSortedNoSplitSpansWithoutMeta2Splits`), each span a pair of
`rocksdb::Slice` byte strings denoting the half-open interval
`[start, end)` under unsigned-byte lexicographic order.

Byte strings are embedded as `List Nat` of byte values; comparison is the
three-way lexicographic comparison used by `rocksdb::Slice::compare`
(memcmp on the common length, then a shorter string is less than any
string it is a strict prefix of).
-/

/-- A raw key: a sequence of unsigned byte values. -/
abbrev ByteString := List Nat

/-- A key span: the ordered pair `(start, end)` denoting `[start, end)`. -/
abbrev Span := ByteString × ByteString

/-- Three-way unsigned-byte lexicographic comparison, matching
`rocksdb::Slice::compare`: compare byte by byte; if one string is
exhausted first it is the smaller (a strict prefix is less). -/
def bcmp : ByteString → ByteString → Ordering
  | [], [] => Ordering.eq
  | [], _ :: _ => Ordering.lt
  | _ :: _, [] => Ordering.gt
  | a :: as, b :: bs =>
    if a < b then Ordering.lt
    else if b < a then Ordering.gt
    else bcmp as bs

/-- `a < b` in unsigned-byte lexicographic order. -/
def byteLt (a b : ByteString) : Bool := (bcmp a b).isLT

/-- `a <= b` in unsigned-byte lexicographic order. -/
def byteLe (a b : ByteString) : Bool := (bcmp a b).isLE

/-- `kLocalMax` from keys.h: the byte string `"\x02"` of length 1. -/
def kLocalMax : ByteString := [0x02]

/-- `kMeta2KeyMax` from keys.h: the byte string `"\x03\xff\xff"` of length 3. -/
def kMeta2KeyMax : ByteString := [0x03, 0xff, 0xff]

/-- `kSortedNoSplitSpans` from keys.h, spans in the order listed there. -/
def kSortedNoSplitSpans : List Span :=
  [([0x88], [0x93]),
   ([0x04, 0x00, 0x6c, 0x69, 0x76, 0x65, 0x6e, 0x65, 0x73, 0x73, 0x2d],
    [0x04, 0x00, 0x6c, 0x69, 0x76, 0x65, 0x6e, 0x65, 0x73, 0x73, 0x2e]),
   ([], [0x03])]

/-- `kSortedNoSplitSpansWithoutMeta2Splits` from keys.h, spans in the order
listed there. -/
def kSortedNoSplitSpansWithoutMeta2Splits : List Span :=
  [([0x88], [0x93]),
   ([0x04, 0x00, 0x6c, 0x69, 0x76, 0x65, 0x6e, 0x65, 0x73, 0x73, 0x2d],
    [0x04, 0x00, 0x6c, 0x69, 0x76, 0x65, 0x6e, 0x65, 0x73, 0x73, 0x2e]),
   ([], [0x04])]

/-- Modelled from the spec: the membership query is not in `src/` (only the
constant table is). "`Contains(set, key)` returns true iff `key` falls
within `[start, end)` of some span in `set`." -/
def Contains (set : List Span) (key : ByteString) : Bool :=
  set.any (fun s => byteLe s.1 key && byteLt key s.2)

/-- Modelled from the spec: the split-key query is not in `src/`.
"`IsProtectedSplitKey(set, key)` is true iff `key` lies strictly inside
some span (`start < key < end`)." -/
def IsProtectedSplitKey (set : List Span) (key : ByteString) : Bool :=
  set.any (fun s => byteLt s.1 key && byteLt key s.2)

/-- Modelled from the spec: the overlap query is not in `src/`.
"`SpansOverlapping(set, candidateSplit)` produces the protected spans that
intersect the given candidate range"; a candidate with `start >= end` is an
invalid-argument error, never silently an empty result. Two half-open
intervals `[a, b)` and `[c, d)` intersect iff `a < d` and `c < b`. -/
def SpansOverlapping (set : List Span) (cand : Span) :
    Except String (List Span) :=
  if byteLt cand.1 cand.2 then
    Except.ok (set.filter (fun s => byteLt cand.1 s.2 && byteLt s.1 cand.2))
  else
    Except.error "invalid argument: span start must be less than span end"

/-- Modelled from the spec: accessor returning the `kLocalMax` constant
unchanged ("Accessors for `LocalMax` and `Meta2KeyMax` returning the
constant byte strings"). -/
def LocalMax : ByteString := kLocalMax

/-- Modelled from the spec: accessor returning the `kMeta2KeyMax` constant
unchanged. -/
def Meta2KeyMax : ByteString := kMeta2KeyMax

/-- The ordering invariant as the spec words it: consecutive spans in the
listed order ascend by `start` and satisfy `s_i.end <= s_{i+1}.start`. -/
def ascendingNonOverlapping : List Span → Bool
  | a :: b :: rest =>
    byteLe a.1 b.1 && byteLe a.2 b.1 && ascendingNonOverlapping (b :: rest)
  | _ => true

/-- The ordering invariant the table actually satisfies: consecutive spans
in the listed order strictly descend by `start` and satisfy
`s_{i+1}.end <= s_i.start`. -/
def descendingNonOverlapping : List Span → Bool
  | a :: b :: rest =>
    byteLt b.1 a.1 && byteLe b.2 a.1 && descendingNonOverlapping (b :: rest)
  | _ => true

/-- Following the spec's words for the binary-search answer: the span of
`set` with the greatest `start` among those with `start <= key`, if any. -/
def greatestStartLE (set : List Span) (key : ByteString) : Option Span :=
  set.foldl
    (fun acc s =>
      if byteLe s.1 key then
        match acc with
        | none => some s
        | some t => if byteLt t.1 s.1 then some s else acc
      else acc)
    none

/-- Following the spec's words: answer `Contains` by locating the greatest
span whose `start <= key`, then checking `key < end`. -/
def ContainsViaGreatestStart (set : List Span) (key : ByteString) : Bool :=
  match greatestStartLE set key with
  | some s => byteLt key s.2
  | none => false

/-! ### Order theory for `bcmp` -/

theorem bcmp_eq_iff_eq (a : ByteString) :
    ∀ b, bcmp a b = Ordering.eq ↔ a = b := by
  induction a with
  | nil => intro b; cases b <;> simp [bcmp]
  | cons x xs ih =>
    intro b
    cases b with
    | nil => simp [bcmp]
    | cons y ys =>
      simp only [bcmp]
      rcases Nat.lt_trichotomy x y with h | h | h
      · rw [if_pos h]
        constructor
        · intro hc; exact absurd hc (by decide)
        · intro hc
          injection hc with h1 _
          omega
      · rw [if_neg (by omega), if_neg (by omega)]
        rw [ih ys]
        constructor
        · intro hc; rw [h, hc]
        · intro hc; injection hc with _ h2
      · rw [if_neg (by omega), if_pos h]
        constructor
        · intro hc; exact absurd hc (by decide)
        · intro hc; injection hc with h1 _; omega

theorem bcmp_lt_trans (a : ByteString) :
    ∀ b c, bcmp a b = Ordering.lt → bcmp b c = Ordering.lt →
      bcmp a c = Ordering.lt := by
  induction a with
  | nil =>
    intro b c hab hbc
    cases b with
    | nil => exact absurd hab (by decide)
    | cons y ys =>
      cases c with
      | nil => simp [bcmp] at hbc
      | cons z zs => rfl
  | cons x xs ih =>
    intro b c hab hbc
    cases b with
    | nil => simp [bcmp] at hab
    | cons y ys =>
      cases c with
      | nil => simp [bcmp] at hbc
      | cons z zs =>
        simp only [bcmp] at hab hbc ⊢
        rcases Nat.lt_trichotomy x y with hxy | hxy | hxy
        · rcases Nat.lt_trichotomy y z with hyz | hyz | hyz
          · rw [if_pos (by omega)]
          · rw [if_pos (by omega)]
          · rw [if_neg (by omega), if_pos hyz] at hbc
            exact absurd hbc (by decide)
        · subst hxy
          rw [if_neg (by omega), if_neg (by omega)] at hab
          rcases Nat.lt_trichotomy x z with hxz | hxz | hxz
          · rw [if_pos hxz]
          · subst hxz
            rw [if_neg (by omega), if_neg (by omega)] at hbc
            rw [if_neg (by omega), if_neg (by omega)]
            exact ih _ _ hab hbc
          · rw [if_neg (by omega), if_pos hxz] at hbc
            exact absurd hbc (by decide)
        · rw [if_neg (by omega), if_pos hxy] at hab
          exact absurd hab (by decide)

theorem isLT_iff (o : Ordering) : o.isLT = true ↔ o = Ordering.lt := by
  cases o <;> decide

theorem isLE_iff (o : Ordering) :
    o.isLE = true ↔ o = Ordering.lt ∨ o = Ordering.eq := by
  cases o <;> decide

theorem byteLe_lt_trans (a b c : ByteString) (h1 : byteLe a b = true)
    (h2 : byteLt b c = true) : byteLt a c = true := by
  rw [byteLe, isLE_iff] at h1
  rw [byteLt, isLT_iff] at h2 ⊢
  rcases h1 with h1 | h1
  · exact bcmp_lt_trans a b c h1 h2
  · rw [bcmp_eq_iff_eq] at h1
    rw [h1]
    exact h2

theorem byteLt_eq_false_of_byteLe (a k b : ByteString)
    (h : byteLe a k = true) (hab : byteLt a b = false) :
    byteLt k b = false := by
  cases hkb : byteLt k b
  · rfl
  · have htr := byteLe_lt_trans a k b h hkb
    rw [htr] at hab
    exact absurd hab (by decide)

theorem byteLe_nil (k : ByteString) : byteLe [] k = true := by
  cases k <;> rfl

theorem bcmp_append_left (a : ByteString) :
    ∀ x y, bcmp (a ++ x) (a ++ y) = bcmp x y := by
  induction a with
  | nil => intro x y; rfl
  | cons h t ih =>
    intro x y
    simp only [List.cons_append, bcmp, Nat.lt_irrefl, if_false]
    exact ih x y

/-! ### Claim theorems -/

/-- C1: for every span set and key, `Contains set key` is true iff some span
`(start, end)` of the set satisfies `start <= key < end` in unsigned-byte
lexicographic order; in both table sets every span's start is contained and
every span's end is not. -/
theorem contains_iff_some_span (key : ByteString) :
    (∀ set : List Span, Contains set key = true ↔
      ∃ s ∈ set, byteLe s.1 key = true ∧ byteLt key s.2 = true) ∧
    kSortedNoSplitSpans.all
      (fun s => Contains kSortedNoSplitSpans s.1 &&
        !(Contains kSortedNoSplitSpans s.2)) = true ∧
    kSortedNoSplitSpansWithoutMeta2Splits.all
      (fun s => Contains kSortedNoSplitSpansWithoutMeta2Splits s.1 &&
        !(Contains kSortedNoSplitSpansWithoutMeta2Splits s.2)) = true := by
  refine ⟨fun set => ?_, by decide, by decide⟩
  simp [Contains, List.any_eq_true, Bool.and_eq_true]

/-- C2: for every span set and key, `IsProtectedSplitKey set key` is true iff
`key` lies strictly inside some span (`start < key < end`); in both table
sets it is false at every span's start and every span's end, so a split
exactly at a span boundary is always permitted. -/
theorem isProtectedSplitKey_iff_strictly_inside (key : ByteString) :
    (∀ set : List Span, IsProtectedSplitKey set key = true ↔
      ∃ s ∈ set, byteLt s.1 key = true ∧ byteLt key s.2 = true) ∧
    kSortedNoSplitSpans.all
      (fun s => !(IsProtectedSplitKey kSortedNoSplitSpans s.1) &&
        !(IsProtectedSplitKey kSortedNoSplitSpans s.2)) = true ∧
    kSortedNoSplitSpansWithoutMeta2Splits.all
      (fun s => !(IsProtectedSplitKey kSortedNoSplitSpansWithoutMeta2Splits s.1) &&
        !(IsProtectedSplitKey kSortedNoSplitSpansWithoutMeta2Splits s.2)) = true := by
  refine ⟨fun set => ?_, by decide, by decide⟩
  simp [IsProtectedSplitKey, List.any_eq_true, Bool.and_eq_true]

/-- C3 counterexample: the spans as listed in keys.h are NOT in ascending
order by start, and the first consecutive pair already violates both the
ascending condition (`[0x88]` is not <= `[0x04, 0x00, ...]`) and the
non-overlap condition `s_0.end <= s_1.start`. -/
theorem spans_not_ascending_counterexample :
    byteLe ([0x88] : ByteString)
      [0x04, 0x00, 0x6c, 0x69, 0x76, 0x65, 0x6e, 0x65, 0x73, 0x73, 0x2d] = false ∧
    byteLe ([0x93] : ByteString)
      [0x04, 0x00, 0x6c, 0x69, 0x76, 0x65, 0x6e, 0x65, 0x73, 0x73, 0x2d] = false ∧
    ascendingNonOverlapping kSortedNoSplitSpans = false ∧
    ascendingNonOverlapping kSortedNoSplitSpansWithoutMeta2Splits = false := by
  decide

/-- C3 amended: in both sets the spans appear in strictly descending order
by start, and every consecutive pair `(s_i, s_{i+1})` in the listed order
satisfies `s_{i+1}.end <= s_i.start` (non-overlapping). -/
theorem spans_descending_non_overlapping :
    descendingNonOverlapping kSortedNoSplitSpans = true ∧
    descendingNonOverlapping kSortedNoSplitSpansWithoutMeta2Splits = true := by
  decide

/-- C5: every span in either set has `start` strictly less than `end` in
unsigned-byte lexicographic order; the ordering treats a strict prefix as
less than any longer string extending it. -/
theorem span_start_lt_end :
    kSortedNoSplitSpans.all (fun s => byteLt s.1 s.2) = true ∧
    kSortedNoSplitSpansWithoutMeta2Splits.all (fun s => byteLt s.1 s.2) = true ∧
    (∀ (a : ByteString) (c : Nat) (cs : List Nat),
      byteLt a (a ++ c :: cs) = true) := by
  refine ⟨by decide, by decide, fun a c cs => ?_⟩
  have h := bcmp_append_left a [] (c :: cs)
  rw [List.append_nil] at h
  simp only [byteLt, h]
  rfl

/-- C6: `kLocalMax` is exactly the one-byte string `0x02` and `kMeta2KeyMax`
is exactly the three-byte string `0x03 0xff 0xff`; the accessors return the
constants unchanged. -/
theorem boundary_constants :
    kLocalMax = [0x02] ∧ kMeta2KeyMax = [0x03, 0xff, 0xff] ∧
    kLocalMax.length = 1 ∧ kMeta2KeyMax.length = 3 ∧
    LocalMax = kLocalMax ∧ Meta2KeyMax = kMeta2KeyMax :=
  ⟨rfl, rfl, rfl, rfl, rfl, rfl⟩

/-- C7: the two sets have the same length (3); they agree on every start;
the first two spans are byte-identical between the sets; the third
(meta-addressing) span has identical start in both and differs only in its
end boundary, `0x03` in `kSortedNoSplitSpans` versus `0x04` in
`kSortedNoSplitSpansWithoutMeta2Splits`. -/
theorem span_sets_differ_only_in_meta_end :
    kSortedNoSplitSpansWithoutMeta2Splits.length = kSortedNoSplitSpans.length ∧
    kSortedNoSplitSpans.length = 3 ∧
    kSortedNoSplitSpansWithoutMeta2Splits.map Prod.fst =
      kSortedNoSplitSpans.map Prod.fst ∧
    kSortedNoSplitSpans.take 2 = kSortedNoSplitSpansWithoutMeta2Splits.take 2 ∧
    (kSortedNoSplitSpans.getD 2 ([], [])).1 =
      (kSortedNoSplitSpansWithoutMeta2Splits.getD 2 ([], [])).1 ∧
    (kSortedNoSplitSpans.getD 2 ([], [])).2 = [0x03] ∧
    (kSortedNoSplitSpansWithoutMeta2Splits.getD 2 ([], [])).2 = [0x04] := by
  decide

/-- C8: the two-byte key `0x03 0x00` is not contained in
`kSortedNoSplitSpans`: it is at least `0x03` (its strict prefix compares as
less), less than `0x88`, and so falls in none of the listed spans; in
general the empty string compares as less than every non-empty string. -/
theorem key_after_meta_end_not_contained :
    Contains kSortedNoSplitSpans [0x03, 0x00] = false ∧
    byteLe [0x03] [0x03, 0x00] = true ∧
    byteLt [0x03, 0x00] [0x88] = true ∧
    (∀ (b : Nat) (bs : List Nat), byteLt [] (b :: bs) = true) :=
  ⟨by decide, by decide, by decide, fun _ _ => rfl⟩

/-- C9: `SpansOverlapping` reports a degenerate candidate (`start >= end`,
i.e. not `start < end`) as an invalid-argument error and never as an `ok`
result; for a well-formed candidate it returns, without error, exactly the
spans of the set intersecting the candidate half-open interval. -/
theorem spansOverlapping_spec (set : List Span) (cand : Span) :
    (byteLt cand.1 cand.2 = false →
      SpansOverlapping set cand =
        Except.error "invalid argument: span start must be less than span end" ∧
      ∀ l : List Span, SpansOverlapping set cand ≠ Except.ok l) ∧
    (byteLt cand.1 cand.2 = true →
      ∃ l, SpansOverlapping set cand = Except.ok l ∧
        ∀ s : Span, s ∈ l ↔
          s ∈ set ∧ byteLt cand.1 s.2 = true ∧ byteLt s.1 cand.2 = true) := by
  constructor
  · intro h
    rw [SpansOverlapping, if_neg (by simp [h])]
    exact ⟨rfl, fun l hl => Except.noConfusion hl⟩
  · intro h
    rw [SpansOverlapping, if_pos (by simp [h])]
    refine ⟨_, rfl, fun s => ?_⟩
    simp [List.mem_filter, Bool.and_eq_true, and_assoc]

/-- Witness for C9: a degenerate candidate span `([0x88], [0x88])` is
rejected, and the well-formed candidate `([0x85], [0x90])` gets the exact
overlap characterisation. -/
theorem spansOverlapping_spec_witness :
    (SpansOverlapping kSortedNoSplitSpans ([0x88], [0x88]) =
       Except.error "invalid argument: span start must be less than span end" ∧
     ∀ l : List Span,
       SpansOverlapping kSortedNoSplitSpans ([0x88], [0x88]) ≠ Except.ok l) ∧
    ∃ l, SpansOverlapping kSortedNoSplitSpans ([0x85], [0x90]) = Except.ok l ∧
      ∀ s : Span, s ∈ l ↔
        s ∈ kSortedNoSplitSpans ∧
          byteLt [0x85] s.2 = true ∧ byteLt s.1 [0x90] = true :=
  ⟨(spansOverlapping_spec kSortedNoSplitSpans ([0x88], [0x88])).1 (by decide),
   (spansOverlapping_spec kSortedNoSplitSpans ([0x85], [0x90])).2 (by decide)⟩

/-- C10: `kMeta2KeyMax` distinguishes the two sets: it is not contained in
`kSortedNoSplitSpans` but is contained in
`kSortedNoSplitSpansWithoutMeta2Splits`; and `kLocalMax` lies strictly
inside the meta-addressing span of both sets, so `IsProtectedSplitKey` is
true for it under either set. -/
theorem meta2KeyMax_distinguishes_sets :
    Contains kSortedNoSplitSpans kMeta2KeyMax = false ∧
    Contains kSortedNoSplitSpansWithoutMeta2Splits kMeta2KeyMax = true ∧
    IsProtectedSplitKey kSortedNoSplitSpans kLocalMax = true ∧
    IsProtectedSplitKey kSortedNoSplitSpansWithoutMeta2Splits kLocalMax = true := by
  decide

/-- C4: for both span sets and every key, answering `Contains` by locating
the span with the greatest `start` among those with `start <= key` and then
checking `key < end` gives the same boolean as the linear scan testing
every span for `start <= key < end`. -/
theorem contains_binary_search_equiv (key : ByteString) :
    ContainsViaGreatestStart kSortedNoSplitSpans key =
      Contains kSortedNoSplitSpans key ∧
    ContainsViaGreatestStart kSortedNoSplitSpansWithoutMeta2Splits key =
      Contains kSortedNoSplitSpansWithoutMeta2Splits key := by
  have h3 : byteLe [] key = true := byteLe_nil key
  constructor
  · cases h1 : byteLe [0x88] key with
    | true =>
      have e1 : byteLt key
          [0x04, 0x00, 0x6c, 0x69, 0x76, 0x65, 0x6e, 0x65, 0x73, 0x73, 0x2e] = false :=
        byteLt_eq_false_of_byteLe [0x88] key _ h1 (by decide)
      have e2 : byteLt key [0x03] = false :=
        byteLt_eq_false_of_byteLe [0x88] key _ h1 (by decide)
      cases h2 : byteLe
          [0x04, 0x00, 0x6c, 0x69, 0x76, 0x65, 0x6e, 0x65, 0x73, 0x73, 0x2d] key <;>
        simp [ContainsViaGreatestStart, greatestStartLE, Contains,
          kSortedNoSplitSpans, List.foldl_cons, List.foldl_nil,
          List.any_cons, List.any_nil, h1, h2, h3, e1, e2,
          (by decide : byteLt [0x88]
            [0x04, 0x00, 0x6c, 0x69, 0x76, 0x65, 0x6e, 0x65, 0x73, 0x73, 0x2d] = false),
          (by decide : byteLt ([0x88] : ByteString) [] = false),
          (by decide : byteLt
            [0x04, 0x00, 0x6c, 0x69, 0x76, 0x65, 0x6e, 0x65, 0x73, 0x73, 0x2d]
            ([] : ByteString) = false)]
    | false =>
      cases h2 : byteLe
          [0x04, 0x00, 0x6c, 0x69, 0x76, 0x65, 0x6e, 0x65, 0x73, 0x73, 0x2d] key with
      | true =>
        have f2 : byteLt key [0x03] = false :=
          byteLt_eq_false_of_byteLe
            [0x04, 0x00, 0x6c, 0x69, 0x76, 0x65, 0x6e, 0x65, 0x73, 0x73, 0x2d]
            key _ h2 (by decide)
        simp [ContainsViaGreatestStart, greatestStartLE, Contains,
          kSortedNoSplitSpans, List.foldl_cons, List.foldl_nil,
          List.any_cons, List.any_nil, h1, h2, h3, f2,
          (by decide : byteLt
            [0x04, 0x00, 0x6c, 0x69, 0x76, 0x65, 0x6e, 0x65, 0x73, 0x73, 0x2d]
            ([] : ByteString) = false)]
      | false =>
        simp [ContainsViaGreatestStart, greatestStartLE, Contains,
          kSortedNoSplitSpans, List.foldl_cons, List.foldl_nil,
          List.any_cons, List.any_nil, h1, h2, h3]
  · cases h1 : byteLe [0x88] key with
    | true =>
      have e1 : byteLt key
          [0x04, 0x00, 0x6c, 0x69, 0x76, 0x65, 0x6e, 0x65, 0x73, 0x73, 0x2e] = false :=
        byteLt_eq_false_of_byteLe [0x88] key _ h1 (by decide)
      have e2 : byteLt key [0x04] = false :=
        byteLt_eq_false_of_byteLe [0x88] key _ h1 (by decide)
      cases h2 : byteLe
          [0x04, 0x00, 0x6c, 0x69, 0x76, 0x65, 0x6e, 0x65, 0x73, 0x73, 0x2d] key <;>
        simp [ContainsViaGreatestStart, greatestStartLE, Contains,
          kSortedNoSplitSpansWithoutMeta2Splits, List.foldl_cons, List.foldl_nil,
          List.any_cons, List.any_nil, h1, h2, h3, e1, e2,
          (by decide : byteLt [0x88]
            [0x04, 0x00, 0x6c, 0x69, 0x76, 0x65, 0x6e, 0x65, 0x73, 0x73, 0x2d] = false),
          (by decide : byteLt ([0x88] : ByteString) [] = false),
          (by decide : byteLt
            [0x04, 0x00, 0x6c, 0x69, 0x76, 0x65, 0x6e, 0x65, 0x73, 0x73, 0x2d]
            ([] : ByteString) = false)]
    | false =>
      cases h2 : byteLe
          [0x04, 0x00, 0x6c, 0x69, 0x76, 0x65, 0x6e, 0x65, 0x73, 0x73, 0x2d] key with
      | true =>
        have f2 : byteLt key [0x04] = false :=
          byteLt_eq_false_of_byteLe
            [0x04, 0x00, 0x6c, 0x69, 0x76, 0x65, 0x6e, 0x65, 0x73, 0x73, 0x2d]
            key _ h2 (by decide)
        simp [ContainsViaGreatestStart, greatestStartLE, Contains,
          kSortedNoSplitSpansWithoutMeta2Splits, List.foldl_cons, List.foldl_nil,
          List.any_cons, List.any_nil, h1, h2, h3, f2,
          (by decide : byteLt
            [0x04, 0x00, 0x6c, 0x69, 0x76, 0x65, 0x6e, 0x65, 0x73, 0x73, 0x2d]
            ([] : ByteString) = false)]
      | false =>
        simp [ContainsViaGreatestStart, greatestStartLE, Contains,
          kSortedNoSplitSpansWithoutMeta2Splits, List.foldl_cons, List.foldl_nil,
          List.any_cons, List.any_nil, h1, h2, h3]
